import Mathlib

/-!
Verification of the quiz-session core of `src/Deepbot.py`.

The embedding models the global `user_states` dictionary, the question
records parsed from topic JSON files, and the five state-changing
operations of the source: `send_question` (with its self-recursive
skipping of malformed questions), `handle_answer`, `skip_question`,
`end_quiz` and `start_quiz_from_file`.  Outbound chat traffic
(`bot.send_message` / `callback.answer` call sites) is modelled as a
list of `Msg` values; a Python handler that would raise an uncaught
exception (IndexError / KeyError) is modelled by returning `none`.
-/

namespace Deepbot

/-- A question entry as parsed from a topic JSON file.  Each of the three
JSON keys `question`, `options`, `answer` may be absent from the dict,
which is modelled with `Option` (source line 102 tests for their presence). -/
structure Question where
  text : Option String
  options : Option (List String)
  answer : Option String
deriving DecidableEq

/-- The validity test of `send_question` (source line 102):
`"question" not in q or "options" not in q or "answer" not in q`
is the negation of this predicate. -/
def validQ (q : Question) : Bool :=
  q.text.isSome && q.options.isSome && q.answer.isSome

/-- One user's quiz state: the dict stored in `user_states[user_id]`
(source lines 134–143).  The fields `total_time_start` and
`last_message_id` are omitted: no claim concerns wall-clock time or
Telegram message ids. -/
structure Session where
  questions : List Question
  current_q_index : Nat
  score : Nat
  correct_answers : Nat
  incorrect_answers : Nat
  attempted_questions : Nat
deriving DecidableEq

abbrev UserId := Nat

/-- The global `user_states` dictionary (source line 35). -/
abbrev Store := UserId → Option Session

/-- `user_states[u] = v` (insert/replace) or `user_states.pop(u)` (v = none). -/
def Store.set (st : Store) (u : UserId) (v : Option Session) : Store :=
  fun u' => if u' = u then v else st u'

/-- Outbound effects, one constructor per `bot.send_message` /
`callback.answer` call site of the source. -/
inductive Msg where
  | mainMenu
  | quizStarting (title : String)
  | emptyTopic
  | questionView (displayNumber : Nat) (text : String) (options : List String)
  | skipDiagnostic
  | summary (score correct incorrect attempted : Nat)
  | ackCorrect
  | ackIncorrect (expected : String)
  | ackStateLost
  | fileError
deriving DecidableEq

/-- The messages sent by `end_quiz` (source lines 158–168): the summary
followed by the main menu. -/
def endMsgs (s : Session) : List Msg :=
  [Msg.summary s.score s.correct_answers s.incorrect_answers s.attempted_questions,
   Msg.mainMenu]

/-- `state['current_q_index'] += 1` (source lines 105, 229, 237). -/
def bumpCursor (s : Session) : Session :=
  { s with current_q_index := s.current_q_index + 1 }

/-- The body of `send_question` from line 93 on (source lines 93–119),
including the self-recursion of line 106 that skips malformed questions.
The Python recursion depth is bounded by `len(questions) - idx`, which is
passed here as an explicit structural fuel; the wrapper
`send_question_loop` instantiates the fuel with exactly that bound, under
which `fuel = 0` coincides with the `idx >= len(questions)` test of line
96 and the inner `none` arm (index in range iff `fuel > 0`) is dead code. -/
def sqAux : Nat → Session → Option Session × List Msg
  | 0, s => (none, endMsgs s)
  | fuel + 1, s =>
    match s.questions[s.current_q_index]? with
    | none => (none, endMsgs s)
    | some q =>
      if validQ q then
        (some s,
         [Msg.questionView (s.current_q_index + 1) (q.text.getD "") (q.options.getD [])])
      else
        let r := sqAux fuel (bumpCursor s)
        (r.1, Msg.skipDiagnostic :: r.2)

/-- `send_question` restricted to an existing session (source lines 93–119).
Returns `none` as first component when the quiz completed (the session is
popped by the `end_quiz` call of line 97), `some s'` when a question was
presented and the session survives. -/
def send_question_loop (s : Session) : Option Session × List Msg :=
  sqAux (s.questions.length - s.current_q_index) s

/-- `end_quiz` (source lines 153–168): pops the session; absent session
is a silent no-op. -/
def end_quiz (st : Store) (u : UserId) : Store × List Msg :=
  match st u with
  | none => (st, [])
  | some s => (Store.set st u none, endMsgs s)

/-- `send_question` (source lines 87–119) at store level: absent session
sends the main menu (line 90). -/
def send_question (st : Store) (u : UserId) : Store × List Msg :=
  match st u with
  | none => (st, [Msg.mainMenu])
  | some s =>
    let r := send_question_loop s
    (Store.set st u r.1, r.2)

/-- The counter/acknowledgement block of `handle_answer`
(source lines 220–227): `attempted_questions += 1`, then either the
correct or the incorrect branch. -/
def applyAnswer (s : Session) (ans selected : String) : Session × Msg :=
  let s1 := { s with attempted_questions := s.attempted_questions + 1 }
  if selected = ans then
    ({ s1 with score := s1.score + 1, correct_answers := s1.correct_answers + 1 },
     Msg.ackCorrect)
  else
    ({ s1 with incorrect_answers := s1.incorrect_answers + 1 }, Msg.ackIncorrect ans)

/-- `handle_answer` (source lines 209–230).  `none` models the handler
raising: an IndexError on `state['questions'][state['current_q_index']]`
(line 218) or a KeyError on `current_q['answer']` (line 221). -/
def handle_answer (st : Store) (u : UserId) (selected : String) :
    Option (Store × List Msg) :=
  match st u with
  | none => some (st, [Msg.ackStateLost])
  | some s =>
    match s.questions[s.current_q_index]? with
    | none => none
    | some q =>
      match q.answer with
      | none => none
      | some ans =>
        let p := applyAnswer s ans selected
        let r := send_question_loop (bumpCursor p.1)
        some (Store.set st u r.1, p.2 :: r.2)

/-- `skip_question` (source lines 232–238): absent session is a silent
no-op; otherwise the cursor is bumped and `send_question` runs. -/
def skip_question (st : Store) (u : UserId) : Store × List Msg :=
  match st u with
  | none => (st, [])
  | some s =>
    let r := send_question_loop (bumpCursor s)
    (Store.set st u r.1, r.2)

/-- The tuple swap `x[i], x[j] = x[j], x[i]` inside `random.shuffle`;
out-of-range indices leave the list unchanged (they never occur in the
algorithm). -/
def swapIdx (l : List α) (i j : Nat) : List α :=
  match l[i]?, l[j]? with
  | some a, some b => (l.set i b).set j a
  | _, _ => l

/-- CPython `random.shuffle(x)`:
`for i in reversed(range(1, len(x))): j = randbelow(i + 1); swap x[i] x[j]`.
The random draws are supplied by `rs`; `rs (i) % (i + 1)` models
`randbelow(i + 1)`, a value in `[0, i]`. -/
def shuffleAux (rs : Nat → Nat) : Nat → List α → List α
  | 0, l => l
  | i + 1, l => shuffleAux rs i (swapIdx l (i + 1) (rs (i + 1) % (i + 2)))

/-- `random.shuffle` on the whole list (source line 132). -/
def shuffle (rs : Nat → Nat) (l : List α) : List α :=
  shuffleAux rs (l.length - 1) l

/-- `start_quiz_from_file` after the file was read and parsed
(source lines 126–146): `quiz_data` is `topic_data.get("questions", [])`.
An empty list takes the `if not quiz_data` branch of line 127; otherwise
the list is shuffled, a fresh all-zero session replaces any existing one,
and the first question is presented. -/
def start_quiz_from_file (st : Store) (u : UserId) (rs : Nat → Nat)
    (quiz_data : List Question) (title : String) : Store × List Msg :=
  if quiz_data.isEmpty then
    (st, [Msg.emptyTopic, Msg.mainMenu])
  else
    let s : Session :=
      { questions := shuffle rs quiz_data, current_q_index := 0, score := 0,
        correct_answers := 0, incorrect_answers := 0, attempted_questions := 0 }
    let st1 := Store.set st u (some s)
    let r := send_question st1 u
    (r.1, Msg.quizStarting title :: r.2)

/-- The two in-quiz inbound events: an `answer_…` callback and the
`skip_question` callback. -/
inductive QEvent where
  | ans (selected : String)
  | skipQ
deriving DecidableEq

/-- Dispatch of one in-quiz event (source lines 209–238). -/
def applyQEvent (st : Store) (u : UserId) : QEvent → Option (Store × List Msg)
  | QEvent.ans selected => handle_answer st u selected
  | QEvent.skipQ => some (skip_question st u)

/-- Sequential processing of a list of in-quiz events for one user;
`none` if some handler raised. -/
def runEvents (st : Store) (u : UserId) : List QEvent → Option Store
  | [] => some st
  | e :: es =>
    match applyQEvent st u e with
    | none => none
    | some r => runEvents r.1 u es

/-! ## Helper lemmas -/

theorem mem_of_getElem_opt {α : Type} {l : List α} {i : Nat} {a : α}
    (h : l[i]? = some a) : a ∈ l := by
  obtain ⟨hlt, he⟩ := List.getElem?_eq_some.mp h
  exact he ▸ List.getElem_mem hlt

theorem lt_of_getElem_opt {α : Type} {l : List α} {i : Nat} {a : α}
    (h : l[i]? = some a) : i < l.length :=
  (List.getElem?_eq_some.mp h).1

theorem Store.set_same (st : Store) (u : UserId) (v : Option Session) :
    Store.set st u v u = v := by
  simp [Store.set]

theorem Store.set_other (st : Store) (u u' : UserId) (v : Option Session)
    (h : u' ≠ u) : Store.set st u v u' = st u' := by
  simp [Store.set, h]

/-- Invariants of the `send_question` recursion: if a session survives,
its question list and all four counters are untouched, the cursor did not
move backwards, and it now rests on a valid in-range question. -/
theorem sqAux_some : ∀ (fuel : Nat) (s s' : Session), (sqAux fuel s).1 = some s' →
    s'.questions = s.questions ∧ s'.score = s.score ∧
    s'.correct_answers = s.correct_answers ∧
    s'.incorrect_answers = s.incorrect_answers ∧
    s'.attempted_questions = s.attempted_questions ∧
    s.current_q_index ≤ s'.current_q_index ∧
    s'.current_q_index < s'.questions.length ∧
    ∃ q, s'.questions[s'.current_q_index]? = some q ∧ validQ q = true := by
  intro fuel
  induction fuel with
  | zero => intro s s' h; simp [sqAux] at h
  | succ n ih =>
    intro s s' h
    rw [sqAux] at h
    cases hq : s.questions[s.current_q_index]? with
    | none => rw [hq] at h; simp at h
    | some q =>
      rw [hq] at h
      simp only at h
      by_cases hv : validQ q = true
      · rw [if_pos hv] at h
        simp only [Option.some.injEq] at h
        subst h
        exact ⟨rfl, rfl, rfl, rfl, rfl, le_refl _, lt_of_getElem_opt hq, q, hq, hv⟩
      · rw [if_neg hv] at h
        simp only at h
        obtain ⟨h1, h2, h3, h4, h5, h6, h7, h8⟩ := ih (bumpCursor s) s' h
        refine ⟨h1, h2, h3, h4, h5, ?_, h7, h8⟩
        simp only [bumpCursor] at h6
        omega

/-- The `send_question` recursion over a tail of entirely invalid
questions ends the quiz: one skip diagnostic per remaining entry, then
the summary of the untouched counters. -/
theorem sqAux_all_invalid : ∀ (fuel : Nat) (s : Session),
    fuel = s.questions.length - s.current_q_index →
    (∀ q ∈ s.questions, validQ q = false) →
    sqAux fuel s = (none, List.replicate fuel Msg.skipDiagnostic ++ endMsgs s) := by
  intro fuel
  induction fuel with
  | zero => intro s _ _; simp [sqAux]
  | succ n ih =>
    intro s hf hall
    have hlt : s.current_q_index < s.questions.length := by omega
    have hq : s.questions[s.current_q_index]? = some s.questions[s.current_q_index] :=
      List.getElem?_eq_getElem hlt
    have hv : validQ s.questions[s.current_q_index] = false :=
      hall _ (List.getElem_mem hlt)
    have hrec := ih (bumpCursor s) (by simp only [bumpCursor]; omega)
      (by simpa only [bumpCursor] using hall)
    rw [sqAux, hq]
    simp only [hv, Bool.false_eq_true, if_false, hrec]
    simp [endMsgs, bumpCursor, List.replicate_succ]

/-- Moving the element at index `i` to the head while writing `a` in its
place is a permutation of consing `a` directly. -/
theorem cons_set_perm {α : Type} : ∀ (t : List α) (i : Nat) (a b : α),
    t[i]? = some b → List.Perm (b :: t.set i a) (a :: t) := by
  intro t
  induction t with
  | nil => intro i a b h; simp at h
  | cons c t' ih =>
    intro i a b h
    cases i with
    | zero =>
      simp only [List.getElem?_cons_zero, Option.some.injEq] at h
      subst h
      rw [List.set_cons_zero]
      exact List.Perm.swap a c t'
    | succ n =>
      simp only [List.getElem?_cons_succ] at h
      rw [List.set_cons_succ]
      exact ((List.Perm.swap c b _).trans ((ih n a b h).cons c)).trans
        (List.Perm.swap a c t')

/-- Writing `b` at `i` and `a` at `j`, when `a` and `b` were the elements
at `i` and `j`, permutes the list. -/
theorem swap_set_perm {α : Type} : ∀ (l : List α) (i j : Nat) (a b : α),
    l[i]? = some a → l[j]? = some b → List.Perm ((l.set i b).set j a) l := by
  intro l
  induction l with
  | nil => intro i j a b h _; simp at h
  | cons x t ih =>
    intro i j a b ha hb
    cases i with
    | zero =>
      simp only [List.getElem?_cons_zero, Option.some.injEq] at ha
      subst ha
      cases j with
      | zero =>
        rw [List.set_cons_zero, List.set_cons_zero]
      | succ k =>
        simp only [List.getElem?_cons_succ] at hb
        rw [List.set_cons_zero, List.set_cons_succ]
        exact cons_set_perm t k x b hb
    | succ m =>
      simp only [List.getElem?_cons_succ] at ha
      cases j with
      | zero =>
        simp only [List.getElem?_cons_zero, Option.some.injEq] at hb
        subst hb
        rw [List.set_cons_succ, List.set_cons_zero]
        exact cons_set_perm t m x a ha
      | succ k =>
        simp only [List.getElem?_cons_succ] at hb
        rw [List.set_cons_succ, List.set_cons_succ]
        exact (ih m k a b ha hb).cons x

/-- One tuple swap of `random.shuffle` is a permutation. -/
theorem swapIdx_perm {α : Type} (l : List α) (i j : Nat) :
    List.Perm (swapIdx l i j) l := by
  rcases ha : l[i]? with _ | a <;> rcases hb : l[j]? with _ | b <;>
    simp only [swapIdx, ha, hb] <;>
    first
      | exact List.Perm.refl l
      | exact swap_set_perm l i j a b ha hb

/-- The Fisher–Yates loop is a permutation. -/
theorem shuffleAux_perm {α : Type} (rs : Nat → Nat) :
    ∀ (n : Nat) (l : List α), List.Perm (shuffleAux rs n l) l := by
  intro n
  induction n with
  | zero => intro l; exact List.Perm.refl l
  | succ i ih =>
    intro l
    exact (ih _).trans (swapIdx_perm l (i + 1) _)

/-- `random.shuffle` produces a permutation of its input. -/
theorem shuffle_perm {α : Type} (rs : Nat → Nat) (l : List α) :
    List.Perm (shuffle rs l) l :=
  shuffleAux_perm rs _ l

/-- `random.shuffle` preserves length. -/
theorem shuffle_length {α : Type} (rs : Nat → Nat) (l : List α) :
    (shuffle rs l).length = l.length :=
  (shuffle_perm rs l).length_eq

/-- Field effects of the counter block of `handle_answer`: `attempted`
rises by one, exactly one of `correct`/`incorrect` rises by one, the
question list and cursor are untouched. -/
theorem applyAnswer_spec (s : Session) (ans selected : String) :
    (applyAnswer s ans selected).1.questions = s.questions ∧
    (applyAnswer s ans selected).1.current_q_index = s.current_q_index ∧
    (applyAnswer s ans selected).1.attempted_questions = s.attempted_questions + 1 ∧
    s.score ≤ (applyAnswer s ans selected).1.score ∧
    s.correct_answers ≤ (applyAnswer s ans selected).1.correct_answers ∧
    s.incorrect_answers ≤ (applyAnswer s ans selected).1.incorrect_answers ∧
    (applyAnswer s ans selected).1.correct_answers +
        (applyAnswer s ans selected).1.incorrect_answers =
      s.correct_answers + s.incorrect_answers + 1 := by
  by_cases h : selected = ans <;>
    simp [applyAnswer, h] <;> omega

/-- Effect of one successfully processed in-quiz event on the session of
the affected user, when that session survives the event. -/
theorem applyQEvent_step (st : Store) (u : UserId) (e : QEvent) (st' : Store)
    (ms : List Msg) (h : applyQEvent st u e = some (st', ms)) (s : Session)
    (hs : st u = some s) (s' : Session) (hs' : st' u = some s') :
    s'.questions = s.questions ∧
    s.current_q_index < s'.current_q_index ∧
    s'.current_q_index < s'.questions.length ∧
    s.score ≤ s'.score ∧ s.correct_answers ≤ s'.correct_answers ∧
    s.incorrect_answers ≤ s'.incorrect_answers ∧
    s.attempted_questions ≤ s'.attempted_questions ∧
    (s.attempted_questions = s.correct_answers + s.incorrect_answers →
      s'.attempted_questions = s'.correct_answers + s'.incorrect_answers) := by
  cases e with
  | skipQ =>
    simp only [applyQEvent, skip_question, hs, Option.some.injEq] at h
    obtain ⟨hst, _⟩ := Prod.mk.injEq .. ▸ h
    subst hst
    rw [Store.set_same] at hs'
    obtain ⟨h1, h2, h3, h4, h5, h6, h7, h8⟩ :=
      sqAux_some _ (bumpCursor s) s' hs'
    simp only [bumpCursor] at h1 h2 h3 h4 h5 h6
    refine ⟨h1, by omega, h7, by omega, by omega, by omega, by omega, by omega⟩
  | ans selected =>
    simp only [applyQEvent, handle_answer, hs] at h
    cases hq : s.questions[s.current_q_index]? with
    | none => rw [hq] at h; simp at h
    | some q =>
      rw [hq] at h
      simp only at h
      cases hans : q.answer with
      | none => rw [hans] at h; simp at h
      | some ans =>
        rw [hans] at h
        simp only at h
        simp only [Option.some.injEq] at h
        obtain ⟨hst, _⟩ := Prod.mk.injEq .. ▸ h
        subst hst
        rw [Store.set_same] at hs'
        obtain ⟨h1, h2, h3, h4, h5, h6, h7, h8⟩ :=
          sqAux_some _ (bumpCursor (applyAnswer s ans selected).1) s' hs'
        obtain ⟨a1, a2, a3, a4, a5, a6, a7⟩ := applyAnswer_spec s ans selected
        simp only [bumpCursor] at h1 h2 h3 h4 h5 h6
        rw [a1] at h1
        refine ⟨h1, by omega, h7, by omega, by omega, by omega, by omega, by omega⟩

/-- An event for a user with no session never changes the store. -/
theorem applyQEvent_absent (st : Store) (u : UserId) (e : QEvent)
    (hs : st u = none) :
    ∃ ms, applyQEvent st u e = some (st, ms) := by
  cases e with
  | skipQ => exact ⟨[], by simp [applyQEvent, skip_question, hs]⟩
  | ans selected =>
    exact ⟨[Msg.ackStateLost], by simp [applyQEvent, handle_answer, hs]⟩

/-- Running any event list for a user with no session never changes the
store. -/
theorem runEvents_absent (u : UserId) : ∀ (evs : List QEvent) (st st' : Store),
    st u = none → runEvents st u evs = some st' → st' = st := by
  intro evs
  induction evs with
  | nil => intro st st' _ h; simpa [runEvents] using h.symm
  | cons e es ih =>
    intro st st' hu h
    obtain ⟨ms, habs⟩ := applyQEvent_absent st u e hu
    rw [runEvents, habs] at h
    exact ih st st' hu h

/-- Main induction over an in-quiz event sequence: question list
preserved, cursor advanced at least once per event, surviving session in
range, counters monotone, `attempted = correct + incorrect` preserved. -/
theorem runEvents_master (u : UserId) : ∀ (evs : List QEvent) (st st' : Store),
    runEvents st u evs = some st' → ∀ s, st u = some s →
    ∀ s', st' u = some s' →
    s'.questions = s.questions ∧
    s.current_q_index + evs.length ≤ s'.current_q_index ∧
    (evs = [] → s' = s) ∧
    (evs ≠ [] → s'.current_q_index < s'.questions.length) ∧
    s.score ≤ s'.score ∧ s.correct_answers ≤ s'.correct_answers ∧
    s.incorrect_answers ≤ s'.incorrect_answers ∧
    s.attempted_questions ≤ s'.attempted_questions ∧
    (s.attempted_questions = s.correct_answers + s.incorrect_answers →
      s'.attempted_questions = s'.correct_answers + s'.incorrect_answers) := by
  intro evs
  induction evs with
  | nil =>
    intro st st' h s hs s' hs'
    have hst : st' = st := by simpa [runEvents] using h.symm
    subst hst
    rw [hs] at hs'
    obtain rfl := (Option.some.injEq .. ▸ hs').symm
    exact ⟨rfl, by simp, fun _ => rfl, fun hne => absurd rfl hne,
      le_refl _, le_refl _, le_refl _, le_refl _, fun hi => hi⟩
  | cons e es ih =>
    intro st st' h s hs s' hs'
    rw [runEvents] at h
    cases happ : applyQEvent st u e with
    | none => rw [happ] at h; simp at h
    | some r =>
      rw [happ] at h
      simp only at h
      cases h1 : r.1 u with
      | none =>
        have := runEvents_absent u es r.1 st' h1 h
        subst this
        rw [h1] at hs'
        exact absurd hs' (by simp)
      | some s₁ =>
        obtain ⟨p1, p2, p3, p4, p5, p6, p7, p8⟩ :=
          applyQEvent_step st u e r.1 r.2 (by rw [happ]) s hs s₁ h1
        obtain ⟨q1, q2, q3, q4, q5, q6, q7, q8, q9⟩ :=
          ih r.1 st' h s₁ h1 s' hs'
        refine ⟨by rw [q1, p1], by simp only [List.length_cons]; omega,
          by intro hx; exact absurd hx (by simp),
          ?_, by omega, by omega, by omega, by omega, fun hi => q9 (p8 hi)⟩
        intro _
        cases es with
        | nil =>
          have hst : st' = r.1 := by simpa [runEvents] using h.symm
          subst hst
          rw [h1] at hs'
          obtain rfl := (Option.some.injEq .. ▸ hs').symm
          exact p3
        | cons e2 es2 => exact q4 (by simp)

/-- A valid question at the cursor is presented as-is: no skip, no
counter or cursor change. -/
theorem sqLoop_present (s : Session) (q : Question)
    (hq : s.questions[s.current_q_index]? = some q) (hv : validQ q = true) :
    send_question_loop s =
      (some s,
       [Msg.questionView (s.current_q_index + 1) (q.text.getD "") (q.options.getD [])]) := by
  have hlt := lt_of_getElem_opt hq
  obtain ⟨k, hk⟩ : ∃ k, s.questions.length - s.current_q_index = k + 1 :=
    ⟨s.questions.length - s.current_q_index - 1, by omega⟩
  rw [send_question_loop, hk, sqAux, hq]
  simp [hv]

/-- When the loaded list is non-empty, `start_quiz_from_file` installs a
freshly shuffled all-zero session and runs `send_question` on it. -/
theorem start_nonempty (st : Store) (u : UserId) (rs : Nat → Nat)
    (qd : List Question) (ti : String) (hne : qd ≠ []) :
    (start_quiz_from_file st u rs qd ti).1 u =
      (send_question_loop
        { questions := shuffle rs qd, current_q_index := 0, score := 0,
          correct_answers := 0, incorrect_answers := 0,
          attempted_questions := 0 }).1 ∧
    (start_quiz_from_file st u rs qd ti).2 =
      Msg.quizStarting ti ::
        (send_question_loop
          { questions := shuffle rs qd, current_q_index := 0, score := 0,
            correct_answers := 0, incorrect_answers := 0,
            attempted_questions := 0 }).2 := by
  have hemp : qd.isEmpty = false := by
    cases qd with
    | nil => exact absurd rfl hne
    | cons a l => rfl
  constructor <;>
    simp [start_quiz_from_file, hemp, send_question, Store.set_same]

/-! ## Claims -/

/-- C1: For every in-progress session and answer submission: if the
selected option equals the current question's answer string (exact string
match) then score, correctCount and attemptedCount each rise by 1 and the
acknowledgement is Correct; for any other selected string incorrectCount
and attemptedCount rise by 1, score is unchanged, and the
acknowledgement is Incorrect carrying the expected answer; in both cases
the cursor is incremented by 1 before the next `send_question` runs. -/
theorem C1_answer_scoring (st : Store) (u : UserId) (selected : String)
    (s : Session) (q : Question) (ans : String)
    (hs : st u = some s) (hq : s.questions[s.current_q_index]? = some q)
    (hans : q.answer = some ans) :
    (selected = ans →
      (applyAnswer s ans selected).1.score = s.score + 1 ∧
      (applyAnswer s ans selected).1.correct_answers = s.correct_answers + 1 ∧
      (applyAnswer s ans selected).1.attempted_questions =
        s.attempted_questions + 1 ∧
      (applyAnswer s ans selected).1.incorrect_answers = s.incorrect_answers ∧
      (applyAnswer s ans selected).2 = Msg.ackCorrect) ∧
    (selected ≠ ans →
      (applyAnswer s ans selected).1.incorrect_answers =
        s.incorrect_answers + 1 ∧
      (applyAnswer s ans selected).1.attempted_questions =
        s.attempted_questions + 1 ∧
      (applyAnswer s ans selected).1.score = s.score ∧
      (applyAnswer s ans selected).1.correct_answers = s.correct_answers ∧
      (applyAnswer s ans selected).2 = Msg.ackIncorrect ans) ∧
    (bumpCursor (applyAnswer s ans selected).1).current_q_index =
      s.current_q_index + 1 ∧
    handle_answer st u selected =
      some (Store.set st u
          (send_question_loop (bumpCursor (applyAnswer s ans selected).1)).1,
        (applyAnswer s ans selected).2 ::
          (send_question_loop (bumpCursor (applyAnswer s ans selected).1)).2) := by
  refine ⟨?_, ?_, ?_, ?_⟩
  · intro hsel; simp [applyAnswer, hsel]
  · intro hsel; simp [applyAnswer, hsel]
  · by_cases hsel : selected = ans <;> simp [applyAnswer, bumpCursor, hsel]
  · simp [handle_answer, hs, hq, hans]

/-- C2 (amended): skip and question-presentation handle malformed
questions by skipping with a diagnostic, and `send_question` never leaves
the cursor on an invalid question, so an answer event always finds a
question with an `answer` field in any state produced by presentation and
then succeeds; but an answer event processed while the cursor question
lacks the `answer` field aborts with a KeyError instead of being treated
as a recoverable skipped condition (see `C2_counterexample`). -/
theorem C2_no_crash_amended :
    (∀ (st : Store) (u : UserId) (selected : String) (s : Session)
      (q : Question), st u = some s →
      s.questions[s.current_q_index]? = some q →
      q.answer.isSome = true → (handle_answer st u selected).isSome = true) ∧
    (∀ s s' : Session, (send_question_loop s).1 = some s' →
      ∃ q, s'.questions[s'.current_q_index]? = some q ∧ validQ q = true) := by
  constructor
  · intro st u selected s q hs hq hans
    obtain ⟨ans, hans'⟩ := Option.isSome_iff_exists.mp hans
    simp [handle_answer, hs, hq, hans']
  · intro s s' h
    exact (sqAux_some _ s s' h).2.2.2.2.2.2.2

/-- A question whose `answer` key is absent. -/
def mqC2 : Question := { text := some "t", options := some ["a"], answer := none }

def sessC2 : Session :=
  { questions := [mqC2], current_q_index := 0, score := 0, correct_answers := 0,
    incorrect_answers := 0, attempted_questions := 0 }

def stC2 : Store := Store.set (fun _ => none) 7 (some sessC2)

/-- C2 counterexample: processing an answer event while the question at
the cursor lacks the `answer` field raises (KeyError on
`current_q['answer']`, line 221), modelled as `none` — it is not handled
as a recoverable skip. -/
theorem C2_counterexample : handle_answer stC2 7 "a" = none := rfl

/-- C4: advancing over a question that is missing a required field
increments the cursor past it, surfaces a skip diagnostic, and leaves all
four counters unchanged in whatever session survives, so the final
attempted count excludes malformed entries. -/
theorem C4_skip_malformed (s : Session) (q : Question)
    (hq : s.questions[s.current_q_index]? = some q) (hv : validQ q = false) :
    send_question_loop s =
      ((send_question_loop (bumpCursor s)).1,
        Msg.skipDiagnostic :: (send_question_loop (bumpCursor s)).2) ∧
    (∀ s', (send_question_loop s).1 = some s' →
      s'.score = s.score ∧ s'.correct_answers = s.correct_answers ∧
      s'.incorrect_answers = s.incorrect_answers ∧
      s'.attempted_questions = s.attempted_questions ∧
      s.current_q_index < s'.current_q_index) := by
  have hlt : s.current_q_index < s.questions.length := lt_of_getElem_opt hq
  obtain ⟨k, hk⟩ : ∃ k, s.questions.length - s.current_q_index = k + 1 :=
    ⟨s.questions.length - s.current_q_index - 1, by omega⟩
  have hbl : (bumpCursor s).questions.length - (bumpCursor s).current_q_index
      = k := by
    simp only [bumpCursor]; omega
  have key : send_question_loop s =
      ((send_question_loop (bumpCursor s)).1,
        Msg.skipDiagnostic :: (send_question_loop (bumpCursor s)).2) := by
    rw [send_question_loop, hk, sqAux, hq]
    simp only [hv, Bool.false_eq_true, if_false]
    rw [send_question_loop, hbl]
  refine ⟨key, ?_⟩
  intro s' h
  rw [key] at h
  obtain ⟨h1, h2, h3, h4, h5, h6, _, _⟩ := sqAux_some _ (bumpCursor s) s' h
  simp only [bumpCursor] at h1 h2 h3 h4 h5 h6
  exact ⟨h2, h3, h4, h5, by omega⟩

/-- C8: for a user with no active session, `end_quiz` is an idempotent
no-op returning no messages, and answer/skip events leave the whole store
(hence every other user's session) unchanged, the answer event being
acknowledged through its session-not-found branch rather than crashing. -/
theorem C8_no_session_noop (st : Store) (u : UserId) (selected : String)
    (hs : st u = none) :
    end_quiz st u = (st, []) ∧
    handle_answer st u selected = some (st, [Msg.ackStateLost]) ∧
    skip_question st u = (st, []) ∧
    (∀ st₂ : Store, end_quiz (end_quiz st₂ u).1 u = ((end_quiz st₂ u).1, [])) := by
  refine ⟨by simp [end_quiz, hs], by simp [handle_answer, hs],
    by simp [skip_question, hs], ?_⟩
  intro st₂
  cases h2 : st₂ u with
  | none => simp [end_quiz, h2]
  | some s2 => simp [end_quiz, h2, Store.set_same]

/-- C10: validity only tests presence of the three fields — a question
whose answer is not among its options is still valid and is presented
normally — and every submission choosing one of the presented options of
such a question is scored Incorrect, leaving the score unchanged. -/
theorem C10_answer_not_in_options (t : String) (opts : List String)
    (ans selected : String) (s : Session)
    (hnot : ans ∉ opts) (hsel : selected ∈ opts) :
    validQ { text := some t, options := some opts, answer := some ans } = true ∧
    (s.questions[s.current_q_index]? =
        some { text := some t, options := some opts, answer := some ans } →
      send_question_loop s =
        (some s, [Msg.questionView (s.current_q_index + 1) t opts])) ∧
    (applyAnswer s ans selected).1.score = s.score ∧
    (applyAnswer s ans selected).1.correct_answers = s.correct_answers ∧
    (applyAnswer s ans selected).1.incorrect_answers =
      s.incorrect_answers + 1 ∧
    (applyAnswer s ans selected).2 = Msg.ackIncorrect ans := by
  have hne : selected ≠ ans := fun h => hnot (h ▸ hsel)
  refine ⟨rfl, ?_, by simp [applyAnswer, hne], by simp [applyAnswer, hne],
    by simp [applyAnswer, hne], by simp [applyAnswer, hne]⟩
  intro hq
  rw [sqLoop_present s _ hq rfl]
  rfl

/-- C3: within a session, `attempted = correct + incorrect` holds at
every point (it holds for a freshly started session and is preserved by
every sequence of answer/skip events), and all four counters are
natural numbers that never decrease across any such sequence. -/
theorem C3_counter_invariant (st : Store) (u : UserId) (evs : List QEvent)
    (st' : Store) (hrun : runEvents st u evs = some st') (s s' : Session)
    (hs : st u = some s) (hs' : st' u = some s')
    (hinv : s.attempted_questions = s.correct_answers + s.incorrect_answers) :
    s'.attempted_questions = s'.correct_answers + s'.incorrect_answers ∧
    s.score ≤ s'.score ∧ s.correct_answers ≤ s'.correct_answers ∧
    s.incorrect_answers ≤ s'.incorrect_answers ∧
    s.attempted_questions ≤ s'.attempted_questions ∧
    (∀ (st₀ : Store) (u₀ : UserId) (rs : Nat → Nat) (qd : List Question)
      (ti : String) (s₀ : Session), qd ≠ [] →
      (start_quiz_from_file st₀ u₀ rs qd ti).1 u₀ = some s₀ →
      s₀.score = 0 ∧ s₀.correct_answers = 0 ∧ s₀.incorrect_answers = 0 ∧
      s₀.attempted_questions = 0 ∧
      s₀.attempted_questions = s₀.correct_answers + s₀.incorrect_answers) := by
  obtain ⟨_, _, _, _, m5, m6, m7, m8, m9⟩ :=
    runEvents_master u evs st st' hrun s hs s' hs'
  refine ⟨m9 hinv, m5, m6, m7, m8, ?_⟩
  intro st₀ u₀ rs qd ti s₀ hne hstart
  rw [(start_nonempty st₀ u₀ rs qd ti hne).1] at hstart
  obtain ⟨_, h2, h3, h4, h5, _⟩ := sqAux_some _ _ s₀ hstart
  exact ⟨h2, h3, h4, h5, by rw [h5, h3, h4]; rfl⟩

/-- C5 (amended): a topic whose loaded question list is empty creates no
session and reports the empty-topic error; but a NON-empty list with zero
valid questions does start a quiz: a session is created, every entry is
skip-diagnosed, and the quiz immediately ends with an all-zero summary
(not an EmptyTopic report), leaving no session behind
(see `C5_counterexample`). -/
theorem C5_empty_topic_amended (st : Store) (u : UserId) (rs : Nat → Nat)
    (quiz_data : List Question) (title : String) :
    (quiz_data = [] →
      start_quiz_from_file st u rs quiz_data title =
        (st, [Msg.emptyTopic, Msg.mainMenu])) ∧
    (quiz_data ≠ [] → (∀ q ∈ quiz_data, validQ q = false) →
      (start_quiz_from_file st u rs quiz_data title).1 u = none ∧
      (start_quiz_from_file st u rs quiz_data title).2 =
        Msg.quizStarting title ::
          (List.replicate quiz_data.length Msg.skipDiagnostic ++
            [Msg.summary 0 0 0 0, Msg.mainMenu])) := by
  constructor
  · intro h; subst h; simp [start_quiz_from_file]
  · intro hne hall
    obtain ⟨h1, h2⟩ := start_nonempty st u rs quiz_data title hne
    have hallsh : ∀ q ∈ shuffle rs quiz_data, validQ q = false := fun q hq =>
      hall q ((shuffle_perm rs quiz_data).mem_iff.mp hq)
    have hloop := sqAux_all_invalid ((shuffle rs quiz_data).length)
      { questions := shuffle rs quiz_data, current_q_index := 0, score := 0,
        correct_answers := 0, incorrect_answers := 0, attempted_questions := 0 }
      (by simp) hallsh
    have hl : send_question_loop
        { questions := shuffle rs quiz_data, current_q_index := 0, score := 0,
          correct_answers := 0, incorrect_answers := 0,
          attempted_questions := 0 } =
        (none, List.replicate (shuffle rs quiz_data).length Msg.skipDiagnostic ++
          [Msg.summary 0 0 0 0, Msg.mainMenu]) := by
      rw [send_question_loop]
      simpa [endMsgs] using hloop
    rw [h1, h2, hl, shuffle_length]
    exact ⟨rfl, rfl⟩

def mqC5 : Question := { text := some "t", options := some ["a"], answer := none }

/-- C5 counterexample: a topic whose (non-empty) loaded set has zero
valid questions does NOT report EmptyTopic — a session is started and the
outcome is a quiz summary. -/
theorem C5_counterexample :
    Msg.emptyTopic ∉
      (start_quiz_from_file (fun _ => none) 3 (fun _ => 0) [mqC5] "Capitals").2 ∧
    (start_quiz_from_file (fun _ => none) 3 (fun _ => 0) [mqC5] "Capitals").2 =
      [Msg.quizStarting "Capitals", Msg.skipDiagnostic,
        Msg.summary 0 0 0 0, Msg.mainMenu] := by
  constructor <;> decide

/-- C6: across any sequence of answer/skip events the cursor never
decreases and never exceeds the (unchanged) question-list length; once at
least `len - cursor` events are processed the session is gone (the cursor
reached the end); the skip-chaining recursion of `send_question` only
moves the cursor forward and stops before the length; and every single
successful answer/skip event strictly increases the cursor of a surviving
session. -/
theorem C6_cursor_termination (st : Store) (u : UserId) (evs : List QEvent)
    (st' : Store) (hrun : runEvents st u evs = some st') (s : Session)
    (hs : st u = some s) :
    (∀ s', st' u = some s' →
      s.current_q_index ≤ s'.current_q_index ∧ s'.questions = s.questions ∧
      (s.current_q_index ≤ s.questions.length →
        s'.current_q_index ≤ s'.questions.length)) ∧
    (s.current_q_index < s.questions.length →
      s.questions.length - s.current_q_index ≤ evs.length → st' u = none) ∧
    (∀ s₁ s₂ : Session, (send_question_loop s₁).1 = some s₂ →
      s₁.current_q_index ≤ s₂.current_q_index ∧
      s₂.current_q_index < s₂.questions.length) ∧
    (∀ (e : QEvent) (st₂ : Store) (ms : List Msg) (s₂ : Session),
      applyQEvent st u e = some (st₂, ms) → st₂ u = some s₂ →
      s.current_q_index < s₂.current_q_index) := by
  refine ⟨?_, ?_, ?_, ?_⟩
  · intro s' hs'
    obtain ⟨m1, m2, m3, m4, _⟩ :=
      runEvents_master u evs st st' hrun s hs s' hs'
    refine ⟨by omega, m1, ?_⟩
    intro hle
    cases evs with
    | nil => rw [m3 rfl]; exact hle
    | cons a l => have := m4 (by simp); omega
  · intro hlt hlen
    cases hx : st' u with
    | none => rfl
    | some s' =>
      obtain ⟨m1, m2, m3, m4, _⟩ :=
        runEvents_master u evs st st' hrun s hs s' hx
      have hne : evs ≠ [] := by
        intro he; subst he; simp at hlen; omega
      have hm := m4 hne
      rw [m1] at hm
      omega
  · intro s₁ s₂ h
    obtain ⟨_, _, _, _, _, h6, h7, _⟩ := sqAux_some _ s₁ s₂ h
    exact ⟨h6, h7⟩
  · intro e st₂ ms s₂ happ hs₂
    exact (applyQEvent_step st u e st₂ ms happ s hs s₂ hs₂).2.1

/-- C7: starting a quiz over a non-empty valid question set installs —
unconditionally replacing whatever session the user had, with no counter
carry-over — a fresh session whose question list is a permutation of the
loaded set (same length, no entry dropped or duplicated), with cursor 0
and all four counters 0. -/
theorem C7_start_fresh (st : Store) (u : UserId) (rs : Nat → Nat)
    (quiz_data : List Question) (title : String)
    (hne : quiz_data ≠ []) (hval : ∀ q ∈ quiz_data, validQ q = true) :
    (start_quiz_from_file st u rs quiz_data title).1 u =
      some { questions := shuffle rs quiz_data, current_q_index := 0,
             score := 0, correct_answers := 0, incorrect_answers := 0,
             attempted_questions := 0 } ∧
    List.Perm (shuffle rs quiz_data) quiz_data ∧
    (shuffle rs quiz_data).length = quiz_data.length := by
  refine ⟨?_, shuffle_perm rs quiz_data, shuffle_length rs quiz_data⟩
  rw [(start_nonempty st u rs quiz_data title hne).1]
  have hlen : 0 < (shuffle rs quiz_data).length := by
    rw [shuffle_length]
    cases quiz_data with
    | nil => exact absurd rfl hne
    | cons a l => simp
  have hv : validQ (shuffle rs quiz_data)[0] = true :=
    hval _ ((shuffle_perm rs quiz_data).mem_iff.mp (List.getElem_mem hlen))
  rw [sqLoop_present _ _ (List.getElem?_eq_getElem hlen) hv]

/-! ## Witnesses: each claim theorem applied at a concrete input -/

def qC1 : Question :=
  { text := some "Capital of France?", options := some ["Paris", "Berlin"],
    answer := some "Paris" }

def sessC1 : Session :=
  { questions := [qC1], current_q_index := 0, score := 0, correct_answers := 0,
    incorrect_answers := 0, attempted_questions := 0 }

def stC1 : Store := Store.set (fun _ => none) 1 (some sessC1)

/-- Witness for C1 at a concrete correct submission. -/
theorem C1_answer_scoring_witness :
    (applyAnswer sessC1 "Paris" "Paris").1.score = sessC1.score + 1 ∧
    (applyAnswer sessC1 "Paris" "Paris").2 = Msg.ackCorrect ∧
    (bumpCursor (applyAnswer sessC1 "Paris" "Paris").1).current_q_index =
      sessC1.current_q_index + 1 := by
  have h := C1_answer_scoring stC1 1 "Paris" sessC1 qC1 "Paris" rfl rfl rfl
  exact ⟨(h.1 rfl).1, (h.1 rfl).2.2.2.2, h.2.2.1⟩

def qC2w : Question :=
  { text := some "q", options := some ["a", "b"], answer := some "a" }

def sessC2w : Session :=
  { questions := [qC2w], current_q_index := 0, score := 0, correct_answers := 0,
    incorrect_answers := 0, attempted_questions := 0 }

def stC2w : Store := Store.set (fun _ => none) 2 (some sessC2w)

/-- Witness for the amended C2 at a concrete answerable state. -/
theorem C2_no_crash_amended_witness :
    (handle_answer stC2w 2 "b").isSome = true :=
  C2_no_crash_amended.1 stC2w 2 "b" sessC2w qC2w rfl rfl rfl

def qC3a : Question := { text := some "q1", options := some ["a"], answer := some "a" }

def qC3b : Question := { text := some "q2", options := some ["b"], answer := some "b" }

def sessC3 : Session :=
  { questions := [qC3a, qC3b], current_q_index := 0, score := 0,
    correct_answers := 0, incorrect_answers := 0, attempted_questions := 0 }

def stC3 : Store := Store.set (fun _ => none) 4 (some sessC3)

/-- Witness for C3: one concrete skip event preserves the invariant. -/
theorem C3_counter_invariant_witness :
    (bumpCursor sessC3).attempted_questions =
      (bumpCursor sessC3).correct_answers +
        (bumpCursor sessC3).incorrect_answers ∧
    sessC3.score ≤ (bumpCursor sessC3).score := by
  have h := C3_counter_invariant stC3 4 [QEvent.skipQ]
    (Store.set stC3 4 (some (bumpCursor sessC3))) rfl sessC3 (bumpCursor sessC3)
    rfl rfl rfl
  exact ⟨h.1, h.2.1⟩

def mqC4 : Question := { text := some "broken", options := none, answer := some "x" }

def qC4 : Question := { text := some "ok", options := some ["y"], answer := some "y" }

def sessC4 : Session :=
  { questions := [mqC4, qC4], current_q_index := 0, score := 3,
    correct_answers := 1, incorrect_answers := 2, attempted_questions := 3 }

/-- Witness for C4 at a concrete malformed-then-valid list. -/
theorem C4_skip_malformed_witness :
    (bumpCursor sessC4).score = sessC4.score ∧
    sessC4.current_q_index < (bumpCursor sessC4).current_q_index := by
  have h := C4_skip_malformed sessC4 mqC4 rfl rfl
  exact ⟨(h.2 (bumpCursor sessC4) rfl).1, (h.2 (bumpCursor sessC4) rfl).2.2.2.2⟩

/-- Witness for the amended C5 at a concrete empty and a concrete
non-empty all-invalid topic. -/
theorem C5_empty_topic_amended_witness :
    start_quiz_from_file (fun _ => none) 9 (fun _ => 0) [] "T" =
      ((fun _ => none : Store), [Msg.emptyTopic, Msg.mainMenu]) ∧
    (start_quiz_from_file (fun _ => none) 9 (fun _ => 0) [mqC5] "T").1 9 = none := by
  have h := C5_empty_topic_amended (fun _ => none) 9 (fun _ => 0) [] "T"
  have h2 := C5_empty_topic_amended (fun _ => none) 9 (fun _ => 0) [mqC5] "T"
  exact ⟨h.1 rfl, (h2.2 (by simp) (by decide)).1⟩

def qC6 : Question := { text := some "only", options := some ["a"], answer := some "a" }

def sessC6 : Session :=
  { questions := [qC6], current_q_index := 0, score := 0, correct_answers := 0,
    incorrect_answers := 0, attempted_questions := 0 }

def stC6 : Store := Store.set (fun _ => none) 5 (some sessC6)

/-- Witness for C6: after one answer on a one-question quiz the session
is gone. -/
theorem C6_cursor_termination_witness :
    (Store.set stC6 5 none) 5 = none := by
  have h := C6_cursor_termination stC6 5 [QEvent.ans "a"] (Store.set stC6 5 none)
    rfl sessC6 rfl
  exact h.2.1 (by decide) (by decide)

def qC7 : Question := { text := some "q", options := some ["z"], answer := some "z" }

/-- Witness for C7 at a concrete one-question topic. -/
theorem C7_start_fresh_witness :
    (start_quiz_from_file (fun _ => none) 6 (fun _ => 0) [qC7] "T").1 6 =
      some { questions := shuffle (fun _ => 0) [qC7], current_q_index := 0,
             score := 0, correct_answers := 0, incorrect_answers := 0,
             attempted_questions := 0 } :=
  (C7_start_fresh (fun _ => none) 6 (fun _ => 0) [qC7] "T"
    (by simp) (by decide)).1

/-- Witness for C8 on the empty store. -/
theorem C8_no_session_noop_witness :
    end_quiz (fun _ => none) 0 = ((fun _ => none : Store), []) ∧
    handle_answer (fun _ => none) 0 "x" =
      some ((fun _ => none : Store), [Msg.ackStateLost]) := by
  have h := C8_no_session_noop (fun _ => none) 0 "x" rfl
  exact ⟨h.1, h.2.1⟩

def sessC10 : Session :=
  { questions := [], current_q_index := 0, score := 0, correct_answers := 0,
    incorrect_answers := 0, attempted_questions := 0 }

/-- Witness for C10 at a concrete question whose answer is outside its
options. -/
theorem C10_answer_not_in_options_witness :
    (applyAnswer sessC10 "c" "a").1.score = sessC10.score ∧
    (applyAnswer sessC10 "c" "a").1.incorrect_answers =
      sessC10.incorrect_answers + 1 := by
  have h := C10_answer_not_in_options "Q" ["a", "b"] "c" "a" sessC10
    (by decide) (by decide)
  exact ⟨h.2.2.1, h.2.2.2.2.1⟩

end Deepbot

